import Mathlib

/-!
Verification of the agent-orchestration backend: a shallow embedding of the
sandbox file operations (`backend/sandbox/local.py`), the verifier command
filter (`backend/agents/verifier.py`), the event bus (`backend/events.py`),
the generic agent executor loop (`backend/agents/base.py`), and the
session/run controller (`backend/orchestrator.py`), together with theorems
settling the specification claims about them.

Conventions: Python exceptions are modelled with `Except`; machine state that
the Python code mutates is passed explicitly; the filesystem is a finite map
from resolved absolute paths to text contents (the repository only ever
round-trips text through these operations); the decision-maker (LLM) is an
oracle mapping the iteration index to the list of response content blocks.
-/

/-- JSON values as produced by Python `json.loads` / consumed by `json.dumps`.
Numbers are kept as their raw source text: no claim in scope depends on
numeric interpretation, only on parse success and structural content. -/
inductive Json where
  | null : Json
  | bool (b : Bool) : Json
  | num (raw : String) : Json
  | str (s : String) : Json
  | arr (items : List Json) : Json
  | obj (fields : List (String × Json)) : Json
deriving Repr

/-- Python exception values that the embedded code can raise. -/
inductive PyExc where
  | permissionError (msg : String)
  | fileNotFoundError (msg : String)
  | isADirectoryError (msg : String)
  | valueError (msg : String)
  | runtimeError (msg : String)
deriving Repr, DecidableEq

/-- Python `str[:n]` slicing (by characters). -/
def pyTake (s : String) (n : Nat) : String := ⟨s.data.take n⟩

/-- The whitespace class used by `str.strip()` and `\s` in the `re` module,
restricted to the ASCII range (the commands and paths in scope are ASCII). -/
def pyIsSpace (c : Char) : Bool :=
  c = ' ' || c = '\t' || c = '\n' || c = '\r' || c = '\x0b' || c = '\x0c'

/-- Python `str.strip()`. -/
def pyStrip (s : String) : String :=
  ⟨((s.data.dropWhile pyIsSpace).reverse.dropWhile pyIsSpace).reverse⟩

/-- Join a list of strings with a separator (Python `sep.join(parts)`). -/
def joinStr (sep : String) : List String → String
  | [] => ""
  | [x] => x
  | x :: y :: rest => x ++ sep ++ joinStr sep (y :: rest)

/-- Python `str.lower()` (ASCII case folding). -/
def pyLower (s : String) : String := ⟨s.data.map Char.toLower⟩

/-- Is `needle` a contiguous substring of `hay`? (Python `in` on `str`.) -/
def containsSub (needle : List Char) : List Char → Bool
  | [] => needle.isEmpty
  | c :: rest => needle.isPrefixOf (c :: rest) || containsSub needle rest

/-- First index ≥ 0 at which `needle` occurs in `hay` (Python `str.index`). -/
def findSubAux (needle : List Char) : List Char → Nat → Option Nat
  | [], i => if needle.isEmpty then some i else none
  | c :: rest, i =>
    if needle.isPrefixOf (c :: rest) then some i else findSubAux needle rest (i + 1)

/-- Python `hay.index(needle, start)` as an `Option` (None instead of
`ValueError`). -/
def findSubFrom (hay needle : String) (start : Nat) : Option Nat :=
  (findSubAux needle.data (hay.data.drop start) 0).map (· + start)

/-- Python slice `s[a:b]` by character index. -/
def pySlice (s : String) (a b : Nat) : String := ⟨(s.data.drop a).take (b - a)⟩

/-- The `\x7b` character (left curly brace), used instead of a literal. -/
def lbrace : Char := Char.ofNat 123

/-- The `\x7d` character (right curly brace). -/
def rbrace : Char := Char.ofNat 125

/-- JSON string escaping for the common control characters. -/
def jsonEscape : List Char → List Char
  | [] => []
  | c :: rest =>
    (if c = '"' then ['\\', '"']
     else if c = '\\' then ['\\', '\\']
     else if c = '\n' then ['\\', 'n']
     else if c = '\r' then ['\\', 'r']
     else if c = '\t' then ['\\', 't']
     else [c]) ++ jsonEscape rest

mutual

/-- Python `json.dumps` with default separators. -/
def Json.dumps : Json → String
  | .null => "null"
  | .bool true => "true"
  | .bool false => "false"
  | .num raw => raw
  | .str s => "\"" ++ ⟨jsonEscape s.data⟩ ++ "\""
  | .arr items => "[" ++ joinStr ", " (dumpsList items) ++ "]"
  | .obj fields =>
    ⟨[lbrace]⟩ ++ joinStr ", " (dumpsFields fields) ++ ⟨[rbrace]⟩

/-- Serialize each array element. -/
def dumpsList : List Json → List String
  | [] => []
  | j :: rest => Json.dumps j :: dumpsList rest

/-- Serialize each object field as `"key": value`. -/
def dumpsFields : List (String × Json) → List String
  | [] => []
  | (k, v) :: rest =>
    ("\"" ++ ⟨jsonEscape k.data⟩ ++ "\": " ++ Json.dumps v) :: dumpsFields rest

end

/-- JSON whitespace (the four characters the JSON grammar allows). -/
def jsonWs (c : Char) : Bool := c = ' ' || c = '\t' || c = '\n' || c = '\r'

/-- Drop leading JSON whitespace. -/
def skipWs : List Char → List Char
  | [] => []
  | c :: rest => if jsonWs c then skipWs rest else c :: rest

/-- Hexadecimal digit value. -/
def hexVal (c : Char) : Option Nat :=
  if '0' ≤ c ∧ c ≤ '9' then some (c.toNat - '0'.toNat)
  else if 'a' ≤ c ∧ c ≤ 'f' then some (c.toNat - 'a'.toNat + 10)
  else if 'A' ≤ c ∧ c ≤ 'F' then some (c.toNat - 'A'.toNat + 10)
  else none

/-- Parse exactly four hex digits (a `\u` escape payload). -/
def parseHex4 : List Char → Option (Nat × List Char)
  | a :: b :: c :: d :: rest => do
    let va ← hexVal a
    let vb ← hexVal b
    let vc ← hexVal c
    let vd ← hexVal d
    pure (((va * 16 + vb) * 16 + vc) * 16 + vd, rest)
  | _ => none

/-- Parse the body of a JSON string literal (after the opening quote),
returning the decoded characters and the input after the closing quote. -/
def parseJsonStr : Nat → List Char → Option (List Char × List Char)
  | 0, _ => none
  | _ + 1, [] => none
  | fuel + 1, c :: rest =>
    if c = '"' then some ([], rest)
    else if c = '\\' then
      match rest with
      | [] => none
      | e :: rest2 =>
        if e = 'u' then do
          let (n, rest3) ← parseHex4 rest2
          let (tail, rem) ← parseJsonStr fuel rest3
          pure (Char.ofNat n :: tail, rem)
        else do
          let d ←
            if e = '"' then some '"'
            else if e = '\\' then some '\\'
            else if e = '/' then some '/'
            else if e = 'b' then some '\x08'
            else if e = 'f' then some '\x0c'
            else if e = 'n' then some '\n'
            else if e = 'r' then some '\r'
            else if e = 't' then some '\t'
            else none
          let (tail, rem) ← parseJsonStr fuel rest2
          pure (d :: tail, rem)
    else do
      let (tail, rem) ← parseJsonStr fuel rest
      pure (c :: tail, rem)

/-- Is `c` an ASCII digit? -/
def isDigitCh (c : Char) : Bool := '0' ≤ c && c ≤ '9'

/-- Parse a JSON number, returning its raw text and the remaining input. -/
def parseJsonNum (cs : List Char) : Option (List Char × List Char) :=
  let (sign, afterSign) :=
    match cs with
    | '-' :: rest => (['-'], rest)
    | _ => (([] : List Char), cs)
  let intPart := afterSign.takeWhile isDigitCh
  let afterInt := afterSign.dropWhile isDigitCh
  if intPart.isEmpty then none
  else
    let (fracPart, afterFrac) :=
      match afterInt with
      | '.' :: rest =>
        let ds := rest.takeWhile isDigitCh
        if ds.isEmpty then (([] : List Char), afterInt)
        else ('.' :: ds, rest.dropWhile isDigitCh)
      | _ => ([], afterInt)
    let (expPart, afterExp) :=
      match afterFrac with
      | e :: rest =>
        if e = 'e' ∨ e = 'E' then
          let (esign, rest2) :=
            match rest with
            | '+' :: r => (['+'], r)
            | '-' :: r => (['-'], r)
            | _ => (([] : List Char), rest)
          let ds := rest2.takeWhile isDigitCh
          if ds.isEmpty then (([] : List Char), afterFrac)
          else (e :: (esign ++ ds), rest2.dropWhile isDigitCh)
        else ([], afterFrac)
      | _ => ([], afterFrac)
    some (sign ++ intPart ++ fracPart ++ expPart, afterExp)

mutual

/-- Recursive-descent parser for a JSON value (fueled; the fuel is generous
since every recursive call consumes at least one input character). -/
def parseJsonValue : Nat → List Char → Option (Json × List Char)
  | 0, _ => none
  | fuel + 1, cs0 =>
    let cs := skipWs cs0
    match cs with
    | [] => none
    | c :: rest =>
      if c = '"' then
        (parseJsonStr fuel rest).map fun p => (Json.str ⟨p.1⟩, p.2)
      else if c = lbrace then
        match skipWs rest with
        | d :: rest2 =>
          if d = rbrace then some (Json.obj [], rest2)
          else parseObjItems fuel (skipWs rest) []
        | [] => none
      else if c = '[' then
        match skipWs rest with
        | ']' :: rest2 => some (Json.arr [], rest2)
        | _ => parseArrItems fuel (skipWs rest) []
      else if "true".data.isPrefixOf cs then some (Json.bool true, cs.drop 4)
      else if "false".data.isPrefixOf cs then some (Json.bool false, cs.drop 5)
      else if "null".data.isPrefixOf cs then some (Json.null, cs.drop 4)
      else
        (parseJsonNum cs).map fun p => (Json.num ⟨p.1⟩, p.2)

/-- Parse the remaining items of a non-empty JSON array. -/
def parseArrItems : Nat → List Char → List Json → Option (Json × List Char)
  | 0, _, _ => none
  | fuel + 1, cs, acc => do
    let (v, rest) ← parseJsonValue fuel cs
    match skipWs rest with
    | ',' :: rest2 => parseArrItems fuel rest2 (acc ++ [v])
    | ']' :: rest2 => some (Json.arr (acc ++ [v]), rest2)
    | _ => none

/-- Parse the remaining fields of a non-empty JSON object. -/
def parseObjItems :
    Nat → List Char → List (String × Json) → Option (Json × List Char)
  | 0, _, _ => none
  | fuel + 1, cs, acc =>
    match skipWs cs with
    | q :: rest =>
      if q = '"' then do
        let (key, rest2) ← parseJsonStr fuel rest
        match skipWs rest2 with
        | ':' :: rest3 => do
          let (v, rest4) ← parseJsonValue fuel rest3
          match skipWs rest4 with
          | ',' :: rest5 => parseObjItems fuel rest5 (acc ++ [(⟨key⟩, v)])
          | d :: rest5 =>
            if d = rbrace then some (Json.obj (acc ++ [(⟨key⟩, v)]), rest5)
            else none
          | [] => none
        | _ => none
      else none
    | [] => none

end

/-- Python `json.loads`: parse one JSON document, requiring only trailing
whitespace after it; `none` models a raised `JSONDecodeError`. -/
def jsonLoads (s : String) : Option Json :=
  match parseJsonValue (2 * s.length + 2) s.data with
  | some (v, rest) => if (skipWs rest).isEmpty then some v else none
  | none => none

/-! ## Path model (`pathlib` posix paths)

`PurePath` mirrors `pathlib.PurePosixPath`: an anchor flag plus the list of
components.  Construction collapses `.` components and empty components but
keeps `..` (exactly as `pathlib` does); the `/` operator is `PurePath.join`;
`is_relative_to` is the purely lexical prefix test that `pathlib` documents;
`resolvePath` is the operating-system resolution that collapses `..`
(performed by the kernel at I/O time, and by `Path.resolve`). -/

structure PurePath where
  absolute : Bool
  parts : List String
deriving Repr, DecidableEq

/-- Split a character list into the segments between occurrences of `sep`
(Python `str.split(sep)` for a one-character separator). -/
def splitOnChar (sep : Char) (cur : List Char) : List Char → List String
  | [] => [⟨cur.reverse⟩]
  | c :: rest =>
    if c = sep then ⟨cur.reverse⟩ :: splitOnChar sep [] rest
    else splitOnChar sep (c :: cur) rest

/-- Parse a path string the way `pathlib.PurePosixPath` does: split on `/`,
drop empty components and `.` components, keep `..`. -/
def parsePath (s : String) : PurePath :=
  { absolute := s.data.head? = some '/'
    parts := (splitOnChar '/' [] s.data).filter (fun c => !(c == "" || c == ".")) }

/-- The `/` operator on paths: if the right operand is absolute it replaces
the left entirely, otherwise the components are concatenated (no `..`
collapsing — `pathlib` keeps them). -/
def PurePath.join (p q : PurePath) : PurePath :=
  if q.absolute then q else { absolute := p.absolute, parts := p.parts ++ q.parts }

/-- `pathlib.PurePath.is_relative_to`: a purely lexical test — same anchor and
the other path's components are a prefix of this path's components.  No `..`
resolution happens here. -/
def PurePath.is_relative_to (p q : PurePath) : Bool :=
  p.absolute == q.absolute && q.parts.isPrefixOf p.parts

/-- Collapse `..` components left to right, as the operating system does when
the path is actually used for I/O (`/..` at the root stays at the root). -/
def normalizeParts (acc : List String) : List String → List String
  | [] => acc
  | c :: rest =>
    if c = ".." then normalizeParts acc.dropLast rest
    else normalizeParts (acc ++ [c]) rest

/-- Operating-system resolution of an absolute path (no symlinks in scope). -/
def resolvePath (p : PurePath) : PurePath :=
  { absolute := p.absolute, parts := normalizeParts [] p.parts }

/-- Does resolved path `p` lie within (at or below) resolved directory `ws`? -/
def withinWorkspace (p ws : PurePath) : Bool :=
  p.absolute == ws.absolute && ws.parts.isPrefixOf p.parts

/-! ## Filesystem model

A finite map from resolved absolute paths (component lists) to text file
contents.  A directory exists implicitly wherever some file lives strictly
below it. -/

/-- The filesystem: association list from resolved path components to the
text content of the file stored there. -/
abbrev FileSys := List (List String × String)

/-- Content of the file at `p`, if one exists. -/
def fsLookup (fs : FileSys) (p : List String) : Option String :=
  (fs.find? (fun e => e.1 == p)).map (·.2)

/-- Is there a regular file at `p`? -/
def fsIsFile (fs : FileSys) (p : List String) : Bool := (fsLookup fs p).isSome

/-- Is `p` a directory, i.e. does some file live strictly below it? -/
def fsIsDir (fs : FileSys) (p : List String) : Bool :=
  fs.any
    (fun e => p.isPrefixOf e.1 && !(p == e.1))

/-- `os.path.exists` at a resolved path. -/
def fsExists (fs : FileSys) (p : List String) : Bool :=
  fsIsFile fs p || fsIsDir fs p

/-- Write (create or overwrite) the file at `p`. -/
def fsInsert (fs : FileSys) (p : List String) (content : String) : FileSys :=
  (p, content) :: fs.filter (fun e => !(e.1 == p))

/-- Remove the file at `p` (`Path.unlink`). -/
def fsRemove (fs : FileSys) (p : List String) : FileSys :=
  fs.filter (fun e => !(e.1 == p))

/-- Is some strict ancestor of `p` occupied by a regular file (which would
make `mkdir(parents=True)` / `open` fail)? -/
def fsParentBlocked (fs : FileSys) (p : List String) : Bool :=
  fs.any
    (fun e => e.1.isPrefixOf p && !(e.1 == p))

/-- Universal-newline decoding performed by `Path.read_text()` (text mode with
`newline=None`): `\r\n` and lone `\r` both become `\n`. -/
def nlAux : List Char → List Char
  | [] => []
  | [c] => if c = '\r' then ['\n'] else [c]
  | c :: c2 :: rest =>
    if c = '\r' then
      if c2 = '\n' then '\n' :: nlAux rest
      else '\n' :: nlAux (c2 :: rest)
    else c :: nlAux (c2 :: rest)

/-- String-level universal-newline decoding. -/
def translateNewlines (s : String) : String := ⟨nlAux s.data⟩

namespace LocalSandbox

/-- `LocalSandbox.read_file` (backend/sandbox/local.py).  The guard is the
*lexical* `is_relative_to` test on the unresolved join, exactly as in the
source; the subsequent `exists`/`is_dir`/`read_text` calls hit the filesystem
at the operating-system-resolved target.  `read_text` opens the file in text
mode, so the content comes back through universal-newline decoding. -/
def read_file (fs : FileSys) (workspace : PurePath) (path : String) :
    Except PyExc String :=
  let target := workspace.join (parsePath path)
  if !(target.is_relative_to workspace) then
    .error (.permissionError ("Path escapes workspace: " ++ path))
  else
    let r := (resolvePath target).parts
    if !(fsExists fs r) then .error (.fileNotFoundError ("Not found: " ++ path))
    else if fsIsDir fs r then
      .error (.isADirectoryError (path ++ " is a directory"))
    else
      match fsLookup fs r with
      | some content => .ok (translateNewlines content)
      | none => .error (.fileNotFoundError ("Not found: " ++ path))

/-- `LocalSandbox.write_file` (backend/sandbox/local.py): same lexical guard,
then `mkdir(parents=True)` and `write_text` at the resolved target (on Linux,
writing translates `\n` to `os.linesep = \n`, i.e. stores the content
verbatim). -/
def write_file (fs : FileSys) (workspace : PurePath) (path : String)
    (content : String) : Except PyExc FileSys :=
  let target := workspace.join (parsePath path)
  if !(target.is_relative_to workspace) then
    .error (.permissionError ("Path escapes workspace: " ++ path))
  else
    let r := (resolvePath target).parts
    if fsIsDir fs r then
      .error (.isADirectoryError (path ++ " is a directory"))
    else if fsParentBlocked fs r then
      .error (.fileNotFoundError ("Not a directory: " ++ path))
    else .ok (fsInsert fs r content)

end LocalSandbox

/-- The implementer's `delete_file` handler `_delete`
(backend/agents/implementer.py): `target = sandbox.workspace / path`, then
`target.exists()` / `target.unlink()` — there is no workspace-containment
guard at all. -/
def implementer_delete (fs : FileSys) (workspace : PurePath) (path : String) :
    Except PyExc (FileSys × String) :=
  let target := workspace.join (parsePath path)
  let r := (resolvePath target).parts
  if fsExists fs r then
    if fsIsFile fs r then .ok (fsRemove fs r, "Deleted " ++ path)
    else .error (.isADirectoryError path)
  else .ok (fs, path ++ " not found")

/-! ## Verifier command filter (`backend/agents/verifier.py`)

`_FORBIDDEN_COMMAND_PATTERNS` is a fixed list of regular expressions searched
(`re.search`) in `command.strip().lower()`.  Each pattern is translated to a
direct scanner over the character list. -/

/-- Scanner for the pattern `(^|\s)git\s`: the literal `git`, followed by a
whitespace character, occurring at the start of the string or right after a
whitespace character.  The flag records whether the current position is such
a boundary. -/
def gitWsAux (atBoundary : Bool) : List Char → Bool
  | c1 :: c2 :: c3 :: c4 :: rest =>
    (atBoundary && c1 = 'g' && c2 = 'i' && c3 = 't' && pyIsSpace c4) ||
      gitWsAux (pyIsSpace c1) (c2 :: c3 :: c4 :: rest)
  | _ => false

/-- `re.search` for the pattern `(^|\s)git\s`. -/
def matchGitWs (cs : List Char) : Bool := gitWsAux true cs

/-- `re.search` for the pattern `gh\s` (no left boundary in the pattern). -/
def matchGhWs : List Char → Bool
  | c1 :: c2 :: c3 :: rest =>
    (c1 = 'g' && c2 = 'h' && pyIsSpace c3) || matchGhWs (c2 :: c3 :: rest)
  | _ => false

/-- After the literal `create`: one or more whitespace characters, then the
literal `pr` (`seenWs` records whether at least one whitespace was seen). -/
def prAfterWs (seenWs : Bool) : List Char → Bool
  | c :: rest =>
    if pyIsSpace c then prAfterWs true rest
    else seenWs && c = 'p' && rest.head? = some 'r'
  | [] => false

/-- `re.search` for the pattern `create\s+pr`. -/
def matchCreateWsPr : List Char → Bool
  | [] => false
  | c :: rest =>
    ("create".data.isPrefixOf (c :: rest) && prAfterWs false ((c :: rest).drop 6)) ||
      matchCreateWsPr rest

/-- Does `command.strip().lower()` match one of the six entries of
`_FORBIDDEN_COMMAND_PATTERNS`, in the order the source lists them:
`(^|\s)git\s`, `gh\s`, `gitkraken`, `commit`, `push`, `create\s+pr`? -/
def isForbiddenCommand (command : String) : Bool :=
  let n := (pyLower (pyStrip command)).data
  matchGitWs n || matchGhWs n || containsSub "gitkraken".data n ||
    containsSub "commit".data n || containsSub "push".data n || matchCreateWsPr n

/-- The fixed stderr banner returned for a rejected verifier command. -/
def verifierBanner : String :=
  "Verifier safety policy: git/PR/push commands are not allowed during verification."

/-- Result of a sandbox `run_command` call. -/
structure CommandResult where
  exit_code : Int
  stdout : String
  stderr : String
deriving Repr, DecidableEq

/-- Output of the verifier's `run_command` tool handler: the result dictionary
plus the list of commands that were actually handed to the sandbox (so that
"no subprocess was spawned" is observable). -/
structure VerifierRunOut where
  result : Json
  spawned : List String

/-- The verifier's `_run` handler (backend/agents/verifier.py): normalize the
command, reject it synthetically if any forbidden pattern matches, otherwise
run it in the sandbox (120 s timeout) and truncate the captured output. -/
def verifier_run (runCommand : String → CommandResult) (command : String) :
    VerifierRunOut :=
  if isForbiddenCommand command then
    { result := Json.obj
        [("exit_code", Json.num "2"), ("stdout", Json.str ""),
         ("stderr", Json.str verifierBanner)]
      spawned := [] }
  else
    let r := runCommand command
    { result := Json.obj
        [("exit_code", Json.num (toString r.exit_code)),
         ("stdout", Json.str (pyTake r.stdout 50000)),
         ("stderr", Json.str (pyTake r.stderr 10000))]
      spawned := [command] }

/-! ## Event bus (`backend/events.py`)

`EventBus.subscribe` is an async generator: an unbounded queue is registered
for the session, then `while True:` awaits the queue with a 30-second
timeout and yields each event.  The `try`/`except TimeoutError` surrounds the
*whole loop*, and the `finally` removes the queue, so the generator's
behaviour is a function of the sequence of wait outcomes. -/

/-- Outcome of one `asyncio.wait_for(queue.get(), timeout=30)`. -/
inductive WaitOutcome where
  | event (e : Json) : WaitOutcome
  | timedOut : WaitOutcome
deriving Repr

/-- A record yielded to the subscriber. -/
inductive SubRecord where
  | ev (e : Json) : SubRecord
  | keepalive : SubRecord
deriving Repr

/-- `EventBus.subscribe` as a function of the wait outcomes: the records it
yields, and whether the generator has finished (its `finally` has removed the
queue from the subscriber list).  An event keeps the loop going; the first
timeout raises `asyncio.TimeoutError` out of the `while` loop, the `except`
yields one keepalive, and the generator then ends — outcomes after the first
timeout are never observed. -/
def subscribeRun : List WaitOutcome → List SubRecord × Bool
  | [] => ([], false)
  | .event e :: rest =>
    let (out, closed) := subscribeRun rest
    (.ev e :: out, closed)
  | .timedOut :: _ => ([.keepalive], true)

/-! ## Agent executor (`backend/agents/base.py`)

The executor is `BaseAgent._loop`, driven by decision-maker responses.  A
response is a list of content blocks; the decision-maker is modelled as an
oracle from the iteration index (number of earlier calls) to the response
blocks.  Tool handlers are pure functions from the tool-use input to a
`HandlerEffect`: either a returned value or a raised exception, plus an
optional `mark_done` record (the sentinel `complete` tool calls
`agent.mark_done(kwargs)` inside its handler). -/

/-- A content block of a decision-maker response. -/
inductive Block where
  | text (s : String) : Block
  | toolUse (name : String) (input : Json) (id : String) : Block
deriving Repr

/-- Value returned by a tool handler: a plain string, a structured value
(serialized with `json.dumps` before being sent back), or a list of typed
content blocks (multimodal content, forwarded as-is). -/
inductive ToolRet where
  | str (s : String) : ToolRet
  | json (j : Json) : ToolRet
  | media (blocks : List Json) : ToolRet
deriving Repr

/-- Effect of one handler invocation. -/
structure HandlerEffect where
  /-- `.ok v` is a normal return; `.error msg` is a raised exception whose
  `str()` is `msg`. -/
  ret : Except String ToolRet
  /-- `some r` if the handler called `mark_done(r)` (the `complete` tool). -/
  markDone : Option Json := none

/-- A registered tool: name plus handler (description and input schema do not
affect the executor's control flow). -/
structure ToolDef where
  name : String
  handler : Json → HandlerEffect

/-- Static configuration of an agent. -/
structure AgentConfig where
  role : String
  tools : List ToolDef
  maxIterations : Nat

/-- `BaseAgent._find_tool`: first registered tool with the given name. -/
def findTool (tools : List ToolDef) (name : String) : Option ToolDef :=
  tools.find? (fun t => t.name == name)

/-- Payload of an emitted event (the event's `type` string is determined by
the constructor). -/
inductive EventData where
  | statusChange (status : String) : EventData
  | agentMessage (content : String) : EventData
  | toolCall (tool : String) (input : Json) (id : String) : EventData
  | toolResult (tool : String) (id : String) (result : String) : EventData
  | errorEv (message : String) : EventData
deriving Repr

/-- An emitted `AgentEvent` (timestamps are not modelled). -/
structure AgentEvent where
  role : String
  data : EventData
deriving Repr

/-- Content stored in a user turn. -/
inductive UserItem where
  | text (t : String) : UserItem
  | toolResult (toolUseId : String) (content : ToolRet) : UserItem
deriving Repr

/-- Content of a user turn: a plain string or a list of items. -/
inductive UserContent where
  | str (s : String) : UserContent
  | items (xs : List UserItem) : UserContent
deriving Repr

/-- A turn of the message history. -/
inductive Turn where
  | user (c : UserContent) : Turn
  | assistant (blocks : List Block) : Turn
deriving Repr

/-- Mutable state of a `BaseAgent` instance. -/
structure AgentState where
  messages : List Turn
  events : List AgentEvent
  done : Bool
  result : Json
  interrupted : Bool
deriving Repr

/-- Append an emitted event (`BaseAgent._emit`). -/
def emitEv (st : AgentState) (role : String) (d : EventData) : AgentState :=
  { st with events := st.events ++ [⟨role, d⟩] }

/-- Processing of one `tool_use` block (the `elif block.type == "tool_use"`
arm of `_loop`): emit `tool_call`, dispatch, emit `tool_result` with the
result preview truncated to 5000 characters, and produce the tool-result
entry for the next user turn.  Returns the emitted events, the user-turn
item, and the updated `done`/`result` pair. -/
def toolUseStep (role : String) (tools : List ToolDef) (done : Bool)
    (result : Json) (name : String) (input : Json) (id : String) :
    List AgentEvent × UserItem × Bool × Json :=
  let callEv : AgentEvent := ⟨role, .toolCall name input id⟩
  match findTool tools name with
  | none =>
    let rs := "Error: unknown tool \x27" ++ name ++ "\x27"
    ([callEv, ⟨role, .toolResult name id (pyTake rs 5000)⟩],
     .toolResult id (.str rs), done, result)
  | some t =>
    let eff := t.handler input
    let done1 := if eff.markDone.isSome then true else done
    let result1 := eff.markDone.getD result
    match eff.ret with
    | .error msg =>
      let rs := "Error: " ++ msg
      ([callEv, ⟨role, .toolResult name id (pyTake rs 5000)⟩],
       .toolResult id (.str rs), done1, result1)
    | .ok (.media blocks) =>
      ([callEv, ⟨role, .toolResult name id (pyTake "[Media Content Array]" 5000)⟩],
       .toolResult id (.media blocks), done1, result1)
    | .ok (.str s) =>
      ([callEv, ⟨role, .toolResult name id (pyTake s 5000)⟩],
       .toolResult id (.str s), done1, result1)
    | .ok (.json j) =>
      let s := Json.dumps j
      ([callEv, ⟨role, .toolResult name id (pyTake s 5000)⟩],
       .toolResult id (.str s), done1, result1)

/-- Result of processing all content blocks of one response. -/
structure BlocksOut where
  events : List AgentEvent
  textParts : List String
  toolResults : List UserItem
  done : Bool
  result : Json
  hasToolUse : Bool
deriving Repr

/-- The `for block in response.content` loop of `_loop`: text blocks emit
`agent_message` and accumulate; tool-use blocks go through `toolUseStep`. -/
def processBlocks (role : String) (tools : List ToolDef) (done : Bool)
    (result : Json) : List Block → BlocksOut
  | [] =>
    { events := [], textParts := [], toolResults := [], done := done,
      result := result, hasToolUse := false }
  | .text s :: rest =>
    let o := processBlocks role tools done result rest
    { o with events := ⟨role, .agentMessage s⟩ :: o.events,
             textParts := s :: o.textParts }
  | .toolUse name input id :: rest =>
    let (evs, item, done1, result1) := toolUseStep role tools done result name input id
    let o := processBlocks role tools done1 result1 rest
    { o with events := evs ++ o.events, toolResults := item :: o.toolResults,
             hasToolUse := true }

/-- `BaseAgent._parse_output`: fenced ```json block first, then raw
`json.loads`, then `{"summary": text}`.  The `.error` case is the uncaught
`ValueError` that `text.index` raises when a ```json fence has no closing
fence. -/
def parseOutput (text : String) : Except PyExc Json :=
  let fallback : Except PyExc Json :=
    match jsonLoads text with
    | some v => .ok v
    | none => .ok (Json.obj [("summary", Json.str text)])
  if containsSub "```json".data text.data then
    let start := (findSubFrom text "```json" 0).getD 0 + 7
    match findSubFrom text "```" start with
    | none => .error (.valueError "substring not found")
    | some stop =>
      match jsonLoads (pyStrip (pySlice text start stop)) with
      | some v => .ok v
      | none => fallback
  else fallback

/-- The result dictionary installed when an interrupt is observed inside the
loop. -/
def interruptedResult : Json :=
  Json.obj [("status", Json.str "interrupted"), ("summary", Json.str "Run interrupted")]

/-- The code after the `while` loop of `_loop`: a `done` agent gets the
terminal `<role>_completed` status and its stored result; otherwise the
iteration cap was exhausted, an `error` event is emitted and the output
result is `{"error": "max_iterations_reached"}` (the stored result is not
overwritten). -/
def loopExit (cfg : AgentConfig) (st : AgentState) :
    Except PyExc Json × AgentState :=
  if st.done then
    (.ok st.result, emitEv st cfg.role (.statusChange (cfg.role ++ "_completed")))
  else
    (.ok (Json.obj [("error", Json.str "max_iterations_reached")]),
     emitEv st cfg.role
       (.errorEv ("Max iterations (" ++ Nat.repr cfg.maxIterations ++ ") reached")))

/-- The `while iterations < max_iterations and not done` loop of `_loop`.
`k` is the number of decision-maker calls already made (so the next response
is `responses k`) and `fuel` is `max_iterations - iterations`.  The
interrupted flag is checked both before and after the decision-maker call,
as in the source (it is constant here: interruption is an external write not
modelled as happening mid-iteration). -/
def loopGo (cfg : AgentConfig) (responses : Nat → List Block) :
    Nat → Nat → AgentState → Except PyExc Json × AgentState
  | _, 0, st => loopExit cfg st
  | k, fuel + 1, st =>
    if st.done then loopExit cfg st
    else if st.interrupted then
      loopExit cfg { st with done := true, result := interruptedResult }
    else
      let response := responses k
      if st.interrupted then
        loopExit cfg { st with done := true, result := interruptedResult }
      else
        let o := processBlocks cfg.role cfg.tools st.done st.result response
        let events1 := st.events ++ o.events
        if o.hasToolUse then
          loopGo cfg responses (k + 1) fuel
            { st with
              messages := st.messages ++
                [.assistant response, .user (.items o.toolResults)],
              events := events1, done := o.done, result := o.result }
        else
          let finalText := joinStr "\n" o.textParts
          match (if o.done then .ok o.result else parseOutput finalText :
              Except PyExc Json) with
          | .error e =>
            (.error e, { st with events := events1, done := o.done, result := o.result })
          | .ok r =>
            (.ok r,
             { st with
               events := events1 ++
                 [⟨cfg.role, .statusChange (cfg.role ++ "_completed")⟩],
               done := o.done, result := r })

namespace BaseAgent

/-- `BaseAgent.run`: seed the history with the serialized context, reset
`done`, emit `<role>_started`, and enter the loop. -/
def run (cfg : AgentConfig) (responses : Nat → List Block) (context : Json)
    (interrupted : Bool) : Except PyExc Json × AgentState :=
  let st0 : AgentState :=
    { messages := [.user (.str (Json.dumps context))], events := [],
      done := false, result := Json.obj [], interrupted := interrupted }
  loopGo cfg responses 0 cfg.maxIterations
    (emitEv st0 cfg.role (.statusChange (cfg.role ++ "_started")))

/-- The pre-loop part of `BaseAgent.resume`: extend the last user turn (or
append a fresh user turn when the last turn is not a user turn), reset
`done`, clear the transient event buffer, and emit `<role>_resumed`. -/
def resumeSetup (cfg : AgentConfig) (st : AgentState) (userMessage : String) :
    AgentState :=
  let messages1 :=
    match st.messages.getLast? with
    | some (.user c) =>
      let newC :=
        match c with
        | .items xs => UserContent.items (xs ++ [.text userMessage])
        | .str s => UserContent.str (s ++ "\n\n" ++ userMessage)
      st.messages.dropLast ++ [.user newC]
    | _ => st.messages ++ [.user (.str userMessage)]
  emitEv
    { messages := messages1, events := [], done := false, result := st.result,
      interrupted := st.interrupted }
    cfg.role (.statusChange (cfg.role ++ "_resumed"))

/-- `BaseAgent.resume`: the setup above, then re-enter the loop. -/
def resume (cfg : AgentConfig) (responses : Nat → List Block) (st : AgentState)
    (userMessage : String) : Except PyExc Json × AgentState :=
  loopGo cfg responses 0 cfg.maxIterations (resumeSetup cfg st userMessage)

end BaseAgent

/-! ## Session/run controller (`backend/orchestrator.py`)

`Orchestrator.run` is modelled as a function of the outcome of sandbox
creation, the outcome of the agent loop (`self._agent.run(...)` either
returns a result dictionary or raises), the `git diff HEAD` output, and the
interrupted flag.  Its observable behaviour is the trace of durable-state
updates and emitted events, plus the returned result dictionary. -/

/-- An exception escaping a step of the controller body: `asyncio` task
cancellation or an ordinary exception with its message. -/
inductive RunExc where
  | cancelled : RunExc
  | exc (msg : String) : RunExc
deriving Repr

/-- Python `dict.get(k)` on a JSON object (None is `Json.null`). -/
def jsonGet (j : Json) (k : String) : Json :=
  match j with
  | .obj fields => (((fields.find? (fun f => f.1 == k)).map (·.2)).getD .null)
  | _ => .null

/-- Python truthiness of a JSON value. -/
def pyTruthy : Json → Bool
  | .null => false
  | .bool b => b
  | .str s => !s.isEmpty
  | .num raw => !(raw == "0" || raw == "0.0")
  | .arr items => !items.isEmpty
  | .obj fields => !fields.isEmpty

/-- One observable effect of the controller. -/
inductive CtrlStep where
  | runStatus (s : String) : CtrlStep
  | sessionStatus (s : String) : CtrlStep
  | emit (role ty : String) (data : Json) : CtrlStep
  | persistEventBatch : CtrlStep
  | persistEvent (role ty : String) : CtrlStep
  | saveArtifact (name : String) : CtrlStep
  | updatePrFields : CtrlStep
deriving Repr

/-- The `status_change` payload with the given status string. -/
def statusPayload (s : String) : Json := Json.obj [("status", Json.str s)]

/-- The result dictionary of the controller's interrupted terminal. -/
def ctrlInterruptedResult : Json :=
  Json.obj [("status", Json.str "interrupted"),
            ("error", Json.str "Run interrupted by user")]

/-- `Orchestrator.run` (backend/orchestrator.py): the try body transitions run
and session to `running`, emits `starting` and `cloning_repo`, creates the
sandbox, runs the agent, persists the event batch, stores a diff artifact if
the diff is non-empty, writes back PR fields if present, and transitions run
and session to `completed` — for any result dictionary the agent returned.
`asyncio.CancelledError` and, when an interrupt was requested, any exception
are demoted to the interrupted terminal (also `completed`); only an ordinary
exception without an interrupt request marks run and session `failed`. -/
def Orchestrator.run (sandboxCreate : Except RunExc Unit)
    (agentRun : Except RunExc Json) (diff : String) (interrupted : Bool) :
    List CtrlStep × Json :=
  let pre : List CtrlStep :=
    [.runStatus "running", .sessionStatus "running",
     .emit "orchestrator" "status_change" (statusPayload "starting"),
     .emit "orchestrator" "status_change" (statusPayload "cloning_repo")]
  let interruptedSteps : List CtrlStep :=
    [.emit "orchestrator" "status_change" (statusPayload "interrupted"),
     .persistEvent "orchestrator" "status_change",
     .runStatus "completed", .sessionStatus "completed"]
  let handleExc : RunExc → List CtrlStep × Json := fun e =>
    match e with
    | .cancelled => (pre ++ interruptedSteps, ctrlInterruptedResult)
    | .exc msg =>
      if interrupted then (pre ++ interruptedSteps, ctrlInterruptedResult)
      else
        (pre ++
          [.emit "orchestrator" "error" (Json.obj [("message", Json.str msg)]),
           .persistEvent "orchestrator" "error",
           .runStatus "failed", .sessionStatus "failed"],
         Json.obj [("status", Json.str "failed"), ("error", Json.str msg)])
  match sandboxCreate with
  | .error e => handleExc e
  | .ok _ =>
    match agentRun with
    | .error e => handleExc e
    | .ok output =>
      let prUrl := jsonGet output "pr_url"
      let prNumber := jsonGet output "pr_number"
      (pre ++ [.persistEventBatch] ++
        (if diff == "" then [] else [.saveArtifact "changes"]) ++
        (if pyTruthy prUrl || pyTruthy prNumber then [.updatePrFields] else []) ++
        [.runStatus "completed", .sessionStatus "completed",
         .emit "orchestrator" "status_change" (statusPayload "completed")],
       Json.obj
         [("status", Json.str "completed"), ("summary", jsonGet output "summary"),
          ("pr_url", prUrl), ("pr_number", prNumber)])

/-- The sequence of run-status updates in a controller trace. -/
def runStatusUpdates (steps : List CtrlStep) : List String :=
  steps.filterMap fun s =>
    match s with
    | .runStatus v => some v
    | _ => none

/-- The sequence of session-status updates in a controller trace. -/
def sessionStatusUpdates (steps : List CtrlStep) : List String :=
  steps.filterMap fun s =>
    match s with
    | .sessionStatus v => some v
    | _ => none

/-! ## Helper lemmas -/

/-- Python slicing `s[:n]` is the identity when the string is short enough. -/
theorem pyTake_eq_self (s : String) (n : Nat) (h : s.length ≤ n) :
    pyTake s n = s := by
  obtain ⟨data⟩ := s
  simp only [String.length] at h
  simp [pyTake, List.take_of_length_le h]

/-- Universal-newline decoding is the identity on carriage-return-free text. -/
theorem nlAux_eq_self : ∀ (l : List Char), (∀ c ∈ l, c ≠ '\r') → nlAux l = l
  | [], _ => rfl
  | [c], h => by
    have hc : c ≠ '\r' := h c (by simp)
    simp [nlAux, hc]
  | c :: c2 :: rest, h => by
    have hc : c ≠ '\r' := h c (by simp)
    have h2 : ∀ x ∈ c2 :: rest, x ≠ '\r' :=
      fun x hx => h x (List.mem_cons_of_mem c hx)
    simp [nlAux, hc, nlAux_eq_self (c2 :: rest) h2]

/-- String-level version of `nlAux_eq_self`. -/
theorem translateNewlines_eq_self (s : String) (h : ∀ c ∈ s.data, c ≠ '\r') :
    translateNewlines s = s := by
  obtain ⟨data⟩ := s
  simp [translateNewlines, nlAux_eq_self data h]

/-- After writing `c` at `p`, looking `p` up yields `c`. -/
theorem fsLookup_insert (fs : FileSys) (p : List String) (c : String) :
    fsLookup (fsInsert fs p c) p = some c := by
  simp [fsLookup, fsInsert, List.find?]

/-- Writing a file at `p` cannot create a directory at `p`. -/
theorem fsIsDir_insert_self (fs : FileSys) (p : List String) (c : String)
    (h : fsIsDir fs p = false) : fsIsDir (fsInsert fs p c) p = false := by
  unfold fsIsDir fsInsert at *
  rw [List.any_eq_false] at h ⊢
  intro e he
  rcases List.mem_cons.mp he with h1 | h2
  · subst h1; simp
  · exact h e (List.mem_of_mem_filter h2)

/-! ## Claim theorems -/

/-- Claim C1 (code evaluated at the failing input).  The spec requires every
tool path to be confined to the workspace root before any filesystem touch.
The code's guard is `(workspace / path).is_relative_to(workspace)` on the
*unresolved* join — a purely lexical test that accepts every relative path,
`..` components included.  At workspace `/tmp/ramp_x/repo`: the relative path
`../../etc/passwd` resolves to `/tmp/etc/passwd`, outside the workspace, yet
`read_file` raises no permission error and returns the outside file's
content; and the implementer's `delete_file` handler, which has no guard at
all, unlinks `/etc/shadow` via `../../../etc/shadow`. -/
theorem c1_path_escape_not_enforced :
    (withinWorkspace
      (resolvePath ((parsePath "/tmp/ramp_x/repo").join (parsePath "../../etc/passwd")))
      (parsePath "/tmp/ramp_x/repo") = false)
    ∧ LocalSandbox.read_file
        [(["tmp", "etc", "passwd"], "secret"), (["etc", "shadow"], "roothash")]
        (parsePath "/tmp/ramp_x/repo") "../../etc/passwd" = .ok "secret"
    ∧ (withinWorkspace
        (resolvePath ((parsePath "/tmp/ramp_x/repo").join (parsePath "../../../etc/shadow")))
        (parsePath "/tmp/ramp_x/repo") = false)
    ∧ implementer_delete
        [(["tmp", "etc", "passwd"], "secret"), (["etc", "shadow"], "roothash")]
        (parsePath "/tmp/ramp_x/repo") "../../../etc/shadow"
        = .ok ([(["tmp", "etc", "passwd"], "secret")], "Deleted ../../../etc/shadow") :=
  ⟨by decide, by rfl, by decide, by rfl⟩

/-- Claim C3: a verifier command whose stripped, lowercased form matches one
of the fixed forbidden patterns is answered synthetically with
`exit_code = 2`, empty stdout and the fixed safety-policy banner, and the
sandbox `run_command` is never invoked for it (no subprocess is spawned). -/
theorem c3_forbidden_command_not_spawned (runCommand : String → CommandResult)
    (command : String) (h : isForbiddenCommand command = true) :
    verifier_run runCommand command =
      { result := Json.obj
          [("exit_code", Json.num "2"), ("stdout", Json.str ""),
           ("stderr", Json.str verifierBanner)]
        spawned := [] } := by
  unfold verifier_run
  rw [if_pos h]

/-- Witness for C3 at the concrete command `git push origin main`. -/
theorem c3_forbidden_command_not_spawned_witness :
    isForbiddenCommand "git push origin main" = true ∧
    verifier_run (fun c => ⟨0, c, ""⟩) "git push origin main" =
      { result := Json.obj
          [("exit_code", Json.num "2"), ("stdout", Json.str ""),
           ("stderr", Json.str verifierBanner)]
        spawned := [] } :=
  ⟨by decide,
   c3_forbidden_command_not_spawned (fun c => ⟨0, c, ""⟩) "git push origin main"
     (by decide)⟩

/-- Claim C5 (code evaluated at the failing input).  The spec says that on a
wait timeout `subscribe` yields a keepalive and then *continues* yielding
from the same subscription.  In the code the `except asyncio.TimeoutError`
sits outside the `while` loop, so the first timeout ends the loop: the
generator yields one keepalive, its `finally` removes the queue, and the
subscription is closed — an event published after the timeout is never
delivered.  Both runs below end with the subscription closed (`true`) and
drop the post-timeout event. -/
theorem c5_keepalive_terminates_subscription :
    subscribeRun [.timedOut, .event (Json.str "late-event")] = ([.keepalive], true)
    ∧ subscribeRun
        [.event (Json.str "e1"), .timedOut, .event (Json.str "e2")]
        = ([.ev (Json.str "e1"), .keepalive], true) :=
  ⟨rfl, rfl⟩

/-- Counterexample to claim C8 as stated: the content `"a\rb"` is a valid
UTF-8 string, `write_file` stores it verbatim, but `read_file` goes through
`Path.read_text()` whose universal-newline decoding turns the lone `\r` into
`\n`, so the round trip returns `"a\nb" ≠ "a\rb"`. -/
theorem c8_roundtrip_counterexample :
    LocalSandbox.write_file [] (parsePath "/tmp/ws") "notes.txt" "a\rb"
      = .ok [(["tmp", "ws", "notes.txt"], "a\rb")]
    ∧ LocalSandbox.read_file [(["tmp", "ws", "notes.txt"], "a\rb")]
        (parsePath "/tmp/ws") "notes.txt" = .ok "a\nb"
    ∧ "a\nb" ≠ "a\rb" :=
  ⟨by rfl, by rfl, by decide⟩

/-- Claim C8 as amended: whenever `write_file` succeeds (its guard and
directory checks pass) and the content contains no carriage return,
`read_file` of the same path returns exactly the written content. -/
theorem c8_write_read_roundtrip (fs fs' : FileSys) (ws : PurePath) (p c : String)
    (hw : LocalSandbox.write_file fs ws p c = .ok fs')
    (hcr : ∀ ch ∈ c.data, ch ≠ '\r') :
    LocalSandbox.read_file fs' ws p = .ok c := by
  unfold LocalSandbox.write_file at hw
  unfold LocalSandbox.read_file
  by_cases hesc : (!(PurePath.is_relative_to (PurePath.join ws (parsePath p)) ws)) = true
  · rw [if_pos hesc] at hw
    exact absurd hw (by simp)
  · rw [if_neg hesc] at hw
    rw [if_neg hesc]
    by_cases hdir :
        fsIsDir fs (resolvePath (PurePath.join ws (parsePath p))).parts = true
    · rw [if_pos hdir] at hw
      exact absurd hw (by simp)
    · rw [if_neg hdir] at hw
      by_cases hpb :
          fsParentBlocked fs (resolvePath (PurePath.join ws (parsePath p))).parts = true
      · rw [if_pos hpb] at hw
        exact absurd hw (by simp)
      · rw [if_neg hpb] at hw
        have hfs' : fs' =
            fsInsert fs (resolvePath (PurePath.join ws (parsePath p))).parts c := by
          cases hw
          rfl
        subst hfs'
        have hlook := fsLookup_insert fs
          (resolvePath (PurePath.join ws (parsePath p))).parts c
        have hdir2 := fsIsDir_insert_self fs
          (resolvePath (PurePath.join ws (parsePath p))).parts c
          (by simpa using hdir)
        have hex : fsExists
            (fsInsert fs (resolvePath (PurePath.join ws (parsePath p))).parts c)
            (resolvePath (PurePath.join ws (parsePath p))).parts = true := by
          simp [fsExists, fsIsFile, hlook]
        rw [if_neg (by simp [hex])]
        rw [if_neg (by simp [hdir2])]
        rw [hlook]
        show Except.ok (translateNewlines c) = Except.ok c
        rw [translateNewlines_eq_self c hcr]

/-- Witness for C8 (amended) at a concrete file and content. -/
theorem c8_write_read_roundtrip_witness :
    LocalSandbox.write_file [] (parsePath "/tmp/ws") "f.txt" "hello"
      = .ok [(["tmp", "ws", "f.txt"], "hello")]
    ∧ LocalSandbox.read_file [(["tmp", "ws", "f.txt"], "hello")]
        (parsePath "/tmp/ws") "f.txt" = .ok "hello" :=
  ⟨by rfl,
   c8_write_read_roundtrip [] [(["tmp", "ws", "f.txt"], "hello")]
     (parsePath "/tmp/ws") "f.txt" "hello" (by rfl) (by decide)⟩

/-- Is a block a tool-use block? -/
def blockIsToolUse : Block → Bool
  | .toolUse _ _ _ => true
  | .text _ => false

/-- The text contents of the text blocks of a response, in order. -/
def textsOfBlocks : List Block → List String
  | [] => []
  | .text s :: rest => s :: textsOfBlocks rest
  | .toolUse _ _ _ :: rest => textsOfBlocks rest

/-- `processBlocks` reports tool use exactly when some block is a tool-use
block (the executor's `has_tool_use = any(...)`). -/
theorem processBlocks_hasToolUse (role : String) (tools : List ToolDef) :
    ∀ (bs : List Block) (done : Bool) (result : Json),
      (processBlocks role tools done result bs).hasToolUse
        = bs.any blockIsToolUse
  | [], _, _ => by simp [processBlocks, blockIsToolUse]
  | .text s :: rest, done, result => by
    simp [processBlocks, blockIsToolUse,
      processBlocks_hasToolUse role tools rest done result]
  | .toolUse n i id :: rest, done, result => by
    simp [processBlocks, blockIsToolUse]

/-- The accumulated text parts are the text blocks' contents. -/
theorem processBlocks_textParts (role : String) (tools : List ToolDef) :
    ∀ (bs : List Block) (done : Bool) (result : Json),
      (processBlocks role tools done result bs).textParts = textsOfBlocks bs
  | [], _, _ => rfl
  | .text s :: rest, done, result => by
    simp [processBlocks, textsOfBlocks,
      processBlocks_textParts role tools rest done result]
  | .toolUse n i id :: rest, done, result => by
    simp only [processBlocks, textsOfBlocks]
    exact processBlocks_textParts role tools rest _ _

/-- Without tool-use blocks, no handler runs: `done` and `result` are
untouched. -/
theorem processBlocks_noTool_state (role : String) (tools : List ToolDef) :
    ∀ (bs : List Block) (done : Bool) (result : Json),
      bs.any blockIsToolUse = false →
      (processBlocks role tools done result bs).done = done
        ∧ (processBlocks role tools done result bs).result = result
  | [], _, _, _ => ⟨rfl, rfl⟩
  | .text s :: rest, done, result, h => by
    simp only [List.any_cons, blockIsToolUse, Bool.false_or] at h
    simpa [processBlocks] using
      processBlocks_noTool_state role tools rest done result h
  | .toolUse n i id :: rest, done, result, h => by
    simp [blockIsToolUse] at h

/-- Claim C7: `resume(msg)` resets the done flag, clears the transient event
buffer leaving exactly the `<role>_resumed` status event, re-enters the loop
from that state, and — when the history ends with an assistant turn — leaves
a history that is the old one extended with a user turn whose content is
exactly `msg`. -/
theorem c7_resume_semantics (cfg : AgentConfig) (st : AgentState)
    (responses : Nat → List Block) (msg : String) :
    (BaseAgent.resumeSetup cfg st msg).done = false
    ∧ (BaseAgent.resumeSetup cfg st msg).events
        = [⟨cfg.role, .statusChange (cfg.role ++ "_resumed")⟩]
    ∧ BaseAgent.resume cfg responses st msg
        = loopGo cfg responses 0 cfg.maxIterations (BaseAgent.resumeSetup cfg st msg)
    ∧ (∀ bs, st.messages.getLast? = some (.assistant bs) →
        (BaseAgent.resumeSetup cfg st msg).messages
          = st.messages ++ [.user (.str msg)]) := by
  refine ⟨rfl, rfl, rfl, ?_⟩
  intro bs h
  unfold BaseAgent.resumeSetup
  rw [h]
  rfl

/-- Witness for C7: a history ending in an assistant turn gains a fresh user
turn carrying exactly the follow-up message. -/
theorem c7_resume_semantics_witness :
    (BaseAgent.resumeSetup ⟨"orchestrator", [], 50⟩
        ⟨[.user (.str "ctx"), .assistant [.text "done"]], [], true, Json.null, false⟩
        "also add tests").messages
      = [.user (.str "ctx"), .assistant [.text "done"]]
        ++ [.user (.str "also add tests")] :=
  (c7_resume_semantics ⟨"orchestrator", [], 50⟩
      ⟨[.user (.str "ctx"), .assistant [.text "done"]], [], true, Json.null, false⟩
      (fun _ => []) "also add tests").2.2.2 [.text "done"] (by rfl)

/-- Claim C9: a first response with no tool-use blocks and empty accumulated
text ends the run with result exactly `{"summary": ""}` and a terminal
`<role>_completed` status event. -/
theorem c9_empty_final_response (cfg : AgentConfig) (responses : Nat → List Block)
    (context : Json)
    (hIter : 0 < cfg.maxIterations)
    (hNoTool : (responses 0).any blockIsToolUse = false)
    (hText : joinStr "\n" (textsOfBlocks (responses 0)) = "") :
    (BaseAgent.run cfg responses context false).1
        = .ok (Json.obj [("summary", Json.str "")])
    ∧ ((BaseAgent.run cfg responses context false).2.events).getLast?
        = some ⟨cfg.role, .statusChange (cfg.role ++ "_completed")⟩ := by
  obtain ⟨m, hm⟩ : ∃ m, cfg.maxIterations = m + 1 :=
    ⟨cfg.maxIterations - 1, by omega⟩
  unfold BaseAgent.run
  rw [hm]
  have hHas := processBlocks_hasToolUse cfg.role cfg.tools (responses 0) false
    (Json.obj [])
  have hTexts := processBlocks_textParts cfg.role cfg.tools (responses 0) false
    (Json.obj [])
  have hState := processBlocks_noTool_state cfg.role cfg.tools (responses 0) false
    (Json.obj []) hNoTool
  simp only [loopGo, emitEv]
  simp only [hNoTool] at hHas
  simp only [hHas, hTexts, hState.1, hState.2, hText]
  have hParse : parseOutput "" = .ok (Json.obj [("summary", Json.str "")]) := by rfl
  simp only [hParse]
  constructor
  · rfl
  · simp only [Bool.false_eq_true, if_false, loopExit]
    rw [List.getLast?_concat]

/-- Witness for C9: an empty first response (no blocks at all) at a concrete
configuration. -/
theorem c9_empty_final_response_witness :
    (BaseAgent.run ⟨"implementer", [], 40⟩ (fun _ => []) (Json.obj []) false).1
        = .ok (Json.obj [("summary", Json.str "")])
    ∧ ((BaseAgent.run ⟨"implementer", [], 40⟩ (fun _ => []) (Json.obj [])
          false).2.events).getLast?
        = some ⟨"implementer", .statusChange ("implementer" ++ "_completed")⟩ :=
  c9_empty_final_response ⟨"implementer", [], 40⟩ (fun _ => []) (Json.obj [])
    (by decide) (by rfl) (by rfl)

/-- A dispatched tool-use step leaves `done`/`result` unchanged when no
registered handler ever calls `mark_done`. -/
theorem toolUseStep_state (role : String) (tools : List ToolDef) (done : Bool)
    (result : Json) (n : String) (input : Json) (id : String)
    (h : ∀ t ∈ tools, ∀ inp, (t.handler inp).markDone = none) :
    (toolUseStep role tools done result n input id).2.2 = (done, result) := by
  unfold toolUseStep
  cases hf : findTool tools n with
  | none => rfl
  | some t =>
    have hm := h t (List.mem_of_find?_eq_some hf) input
    cases hr : (t.handler input).ret with
    | error msg => simp [hm, hr]
    | ok v => cases v <;> simp [hm, hr]

/-- `processBlocks` leaves `done`/`result` unchanged when no registered
handler ever calls `mark_done`. -/
theorem processBlocks_state (role : String) (tools : List ToolDef)
    (h : ∀ t ∈ tools, ∀ inp, (t.handler inp).markDone = none) :
    ∀ (bs : List Block) (done : Bool) (result : Json),
      (processBlocks role tools done result bs).done = done
      ∧ (processBlocks role tools done result bs).result = result
  | [], _, _ => ⟨rfl, rfl⟩
  | .text s :: rest, done, result => by
    simpa [processBlocks] using processBlocks_state role tools h rest done result
  | .toolUse n i id :: rest, done, result => by
    rcases hts : toolUseStep role tools done result n i id with ⟨evs, item, d1, r1⟩
    have hdr : d1 = done ∧ r1 = result := by
      have := toolUseStep_state role tools done result n i id h
      rw [hts] at this
      exact ⟨congrArg Prod.fst this, congrArg Prod.snd this⟩
    rcases hdr with ⟨hd, hr⟩
    subst hd
    subst hr
    simpa [processBlocks, hts] using processBlocks_state role tools h rest d1 r1

/-- When every response contains a tool-use block and no handler marks the
agent done, the loop consumes its entire fuel and exits through the
max-iterations arm: result `{"error": "max_iterations_reached"}`, last event
an `error` event with the cap in its message. -/
theorem loopGo_max_iterations (cfg : AgentConfig) (responses : Nat → List Block)
    (hTools : ∀ t ∈ cfg.tools, ∀ inp, (t.handler inp).markDone = none)
    (hResp : ∀ k, (responses k).any blockIsToolUse = true) :
    ∀ (fuel k : Nat) (st : AgentState), st.done = false → st.interrupted = false →
      (loopGo cfg responses k fuel st).1
          = .ok (Json.obj [("error", Json.str "max_iterations_reached")])
      ∧ ((loopGo cfg responses k fuel st).2.events).getLast?
          = some ⟨cfg.role, .errorEv
              ("Max iterations (" ++ Nat.repr cfg.maxIterations ++ ") reached")⟩
  | 0, k, st, hdone, hint => by
    constructor
    · simp [loopGo, loopExit, hdone]
    · simp only [loopGo, loopExit, hdone, Bool.false_eq_true, if_false, emitEv]
      rw [List.getLast?_concat]
  | fuel + 1, k, st, hdone, hint => by
    have hHas : (processBlocks cfg.role cfg.tools false st.result
        (responses k)).hasToolUse = true := by
      rw [processBlocks_hasToolUse]
      exact hResp k
    have hState := processBlocks_state cfg.role cfg.tools hTools (responses k)
      false st.result
    simp only [loopGo, hdone, hint, Bool.false_eq_true, if_false, hHas, if_true]
    exact loopGo_max_iterations cfg responses hTools hResp fuel (k + 1) _
      hState.1 rfl

/-- Claim C2 (amended).  Executor side, as claimed: when every response keeps
producing tool calls and nothing marks the agent done, the run exhausts
`max_iterations`, emits a final `error` event and returns
`{"error": "max_iterations_reached"}`.  Controller side, as the code actually
behaves: the agent returning normally — with *any* result dictionary,
including `{"error": "max_iterations_reached"}` — makes the controller mark
both the run and the session `completed`; `failed` is reserved for an
exception escaping the agent. -/
theorem c2_max_iterations_statuses (cfg : AgentConfig)
    (responses : Nat → List Block) (context : Json) (diff : String) (output : Json)
    (hTools : ∀ t ∈ cfg.tools, ∀ inp, (t.handler inp).markDone = none)
    (hResp : ∀ k, (responses k).any blockIsToolUse = true) :
    ((BaseAgent.run cfg responses context false).1
        = .ok (Json.obj [("error", Json.str "max_iterations_reached")])
     ∧ ((BaseAgent.run cfg responses context false).2.events).getLast?
        = some ⟨cfg.role, .errorEv
            ("Max iterations (" ++ Nat.repr cfg.maxIterations ++ ") reached")⟩)
    ∧ (runStatusUpdates (Orchestrator.run (.ok ()) (.ok output) diff false).1
        = ["running", "completed"]
       ∧ sessionStatusUpdates (Orchestrator.run (.ok ()) (.ok output) diff false).1
        = ["running", "completed"]) := by
  constructor
  · exact loopGo_max_iterations cfg responses hTools hResp cfg.maxIterations 0 _
      rfl rfl
  · unfold Orchestrator.run runStatusUpdates sessionStatusUpdates
    cases hdiff : (diff == "") <;>
      cases hpr : (pyTruthy (jsonGet output "pr_url")
          || pyTruthy (jsonGet output "pr_number")) <;>
      simp [hdiff, hpr, List.filterMap_append, List.filterMap]

/-- The tool and decision-maker oracle used for the concrete C2 run: a single
registered tool that never marks done, and a decision-maker that requests it
on every iteration. -/
def c2Tool : ToolDef := ⟨"echo", fun _ => ⟨.ok (.str "ok"), none⟩⟩

/-- Concrete agent configuration for C2: cap of two iterations. -/
def c2Cfg : AgentConfig := ⟨"orchestrator", [c2Tool], 2⟩

/-- Decision-maker oracle for C2: always one tool-use block. -/
def c2Resp : Nat → List Block := fun _ => [.toolUse "echo" Json.null "call-a"]

/-- Counterexample to claim C2 as stated: the executor does return
`{"error": "max_iterations_reached"}`, but the controller then marks the run
and the session `completed` — the status sequences contain no `failed` at
all, contradicting the claimed `failed` terminal. -/
theorem c2_counterexample :
    (BaseAgent.run c2Cfg c2Resp (Json.obj []) false).1
      = .ok (Json.obj [("error", Json.str "max_iterations_reached")])
    ∧ runStatusUpdates (Orchestrator.run (.ok ())
        (.ok (Json.obj [("error", Json.str "max_iterations_reached")])) "" false).1
      = ["running", "completed"]
    ∧ sessionStatusUpdates (Orchestrator.run (.ok ())
        (.ok (Json.obj [("error", Json.str "max_iterations_reached")])) "" false).1
      = ["running", "completed"]
    ∧ "failed" ∉ runStatusUpdates (Orchestrator.run (.ok ())
        (.ok (Json.obj [("error", Json.str "max_iterations_reached")])) "" false).1
    ∧ "failed" ∉ sessionStatusUpdates (Orchestrator.run (.ok ())
        (.ok (Json.obj [("error", Json.str "max_iterations_reached")])) "" false).1 := by
  refine ⟨rfl, rfl, rfl, ?_, ?_⟩ <;> decide

/-- Witness for C2 (amended) at the concrete configuration. -/
theorem c2_max_iterations_statuses_witness :
    ((BaseAgent.run c2Cfg c2Resp (Json.obj []) false).1
        = .ok (Json.obj [("error", Json.str "max_iterations_reached")])
     ∧ ((BaseAgent.run c2Cfg c2Resp (Json.obj []) false).2.events).getLast?
        = some ⟨c2Cfg.role, .errorEv
            ("Max iterations (" ++ Nat.repr c2Cfg.maxIterations ++ ") reached")⟩)
    ∧ (runStatusUpdates (Orchestrator.run (.ok ())
          (.ok (Json.obj [("summary", Json.str "done")])) "" false).1
        = ["running", "completed"]
       ∧ sessionStatusUpdates (Orchestrator.run (.ok ())
          (.ok (Json.obj [("summary", Json.str "done")])) "" false).1
        = ["running", "completed"]) :=
  c2_max_iterations_statuses c2Cfg c2Resp (Json.obj []) ""
    (Json.obj [("summary", Json.str "done")])
    (by
      intro t ht inp
      rw [List.mem_singleton.mp ht]
      rfl)
    (fun _ => rfl)

/-- Claim C6: a registered handler raising an exception is non-fatal.  Within
one iteration the executor emits the `tool_call` event, converts the
exception to the text `Error: <message>`, emits the `tool_result` event with
that text and the same opaque id, appends the text as the tool-result content
of the next user turn, and the loop continues with the next iteration — the
run state equation below is exactly "continue at iteration k+1 with the
history and event buffer extended". -/
theorem c6_handler_exception_continues (cfg : AgentConfig)
    (responses : Nat → List Block) (st : AgentState) (k fuel : Nat)
    (n : String) (input : Json) (id : String) (msg : String) (t : ToolDef)
    (hfind : findTool cfg.tools n = some t)
    (heff : t.handler input = ⟨.error msg, none⟩)
    (hresp : responses k = [.toolUse n input id])
    (hdone : st.done = false) (hint : st.interrupted = false)
    (hlen : ("Error: " ++ msg).length ≤ 5000) :
    loopGo cfg responses k (fuel + 1) st
      = loopGo cfg responses (k + 1) fuel
          { st with
            messages := st.messages ++
              [.assistant [.toolUse n input id],
               .user (.items [.toolResult id (.str ("Error: " ++ msg))])],
            events := st.events ++
              [⟨cfg.role, .toolCall n input id⟩,
               ⟨cfg.role, .toolResult n id ("Error: " ++ msg)⟩] } := by
  have hstep : toolUseStep cfg.role cfg.tools false st.result n input id
      = ([⟨cfg.role, .toolCall n input id⟩,
          ⟨cfg.role, .toolResult n id ("Error: " ++ msg)⟩],
         .toolResult id (.str ("Error: " ++ msg)), false, st.result) := by
    unfold toolUseStep
    rw [hfind]
    simp [heff, pyTake_eq_self _ _ hlen]
  simp only [loopGo, hdone, hint, Bool.false_eq_true, if_false, hresp,
    processBlocks, hstep]
  simp

/-- Sample tool for the C6 witness: its handler always raises. -/
def c6Tool : ToolDef := ⟨"boom", fun _ => ⟨.error "kaboom", none⟩⟩

/-- Sample decision-maker oracle for the C6 witness. -/
def c6Resp : Nat → List Block := fun _ => [.toolUse "boom" Json.null "call-b"]

/-- Sample starting state for the C6 witness. -/
def c6St : AgentState := ⟨[], [], false, Json.null, false⟩

/-- Witness for C6 at a concrete raising handler. -/
theorem c6_handler_exception_continues_witness :
    loopGo ⟨"implementer", [c6Tool], 40⟩ c6Resp 0 (2 + 1) c6St
      = loopGo ⟨"implementer", [c6Tool], 40⟩ c6Resp (0 + 1) 2
          { c6St with
            messages := c6St.messages ++
              [.assistant [.toolUse "boom" Json.null "call-b"],
               .user (.items [.toolResult "call-b" (.str ("Error: " ++ "kaboom"))])],
            events := c6St.events ++
              [⟨"implementer", .toolCall "boom" Json.null "call-b"⟩,
               ⟨"implementer", .toolResult "boom" "call-b" ("Error: " ++ "kaboom")⟩] } :=
  c6_handler_exception_continues ⟨"implementer", [c6Tool], 40⟩ c6Resp c6St 0 2
    "boom" Json.null "call-b" "kaboom" c6Tool rfl rfl rfl rfl rfl (by decide)

/-- Claim C10: an unrecognized tool name does not raise.  The executor emits
the `tool_call` event, fabricates the result text
`Error: unknown tool '<name>'`, emits a `tool_result` event with the same id
and exactly that text, records the text as the tool-result content of the
next user turn, and continues with the next iteration. -/
theorem c10_unknown_tool_continues (cfg : AgentConfig)
    (responses : Nat → List Block) (st : AgentState) (k fuel : Nat)
    (n : String) (input : Json) (id : String)
    (hfind : findTool cfg.tools n = none)
    (hresp : responses k = [.toolUse n input id])
    (hdone : st.done = false) (hint : st.interrupted = false)
    (hlen : ("Error: unknown tool \x27" ++ n ++ "\x27").length ≤ 5000) :
    loopGo cfg responses k (fuel + 1) st
      = loopGo cfg responses (k + 1) fuel
          { st with
            messages := st.messages ++
              [.assistant [.toolUse n input id],
               .user (.items [.toolResult id
                 (.str ("Error: unknown tool \x27" ++ n ++ "\x27"))])],
            events := st.events ++
              [⟨cfg.role, .toolCall n input id⟩,
               ⟨cfg.role, .toolResult n id
                 ("Error: unknown tool \x27" ++ n ++ "\x27")⟩] } := by
  have hstep : toolUseStep cfg.role cfg.tools false st.result n input id
      = ([⟨cfg.role, .toolCall n input id⟩,
          ⟨cfg.role, .toolResult n id ("Error: unknown tool \x27" ++ n ++ "\x27")⟩],
         .toolResult id (.str ("Error: unknown tool \x27" ++ n ++ "\x27")),
         false, st.result) := by
    unfold toolUseStep
    rw [hfind]
    simp [pyTake_eq_self _ _ hlen]
  simp only [loopGo, hdone, hint, Bool.false_eq_true, if_false, hresp,
    processBlocks, hstep]
  simp

/-- Sample decision-maker oracle for the C10 witness: requests a tool that is
not registered. -/
def c10Resp : Nat → List Block := fun _ => [.toolUse "nosuch" Json.null "call-c"]

/-- Sample starting state for the C10 witness. -/
def c10St : AgentState := ⟨[], [], false, Json.null, false⟩

/-- Witness for C10 with an empty tool registry. -/
theorem c10_unknown_tool_continues_witness :
    loopGo ⟨"verifier", [], 10⟩ c10Resp 0 (4 + 1) c10St
      = loopGo ⟨"verifier", [], 10⟩ c10Resp (0 + 1) 4
          { c10St with
            messages := c10St.messages ++
              [.assistant [.toolUse "nosuch" Json.null "call-c"],
               .user (.items [.toolResult "call-c"
                 (.str ("Error: unknown tool \x27" ++ "nosuch" ++ "\x27"))])],
            events := c10St.events ++
              [⟨"verifier", .toolCall "nosuch" Json.null "call-c"⟩,
               ⟨"verifier", .toolResult "nosuch" "call-c"
                 ("Error: unknown tool \x27" ++ "nosuch" ++ "\x27")⟩] } :=
  c10_unknown_tool_continues ⟨"verifier", [], 10⟩ c10Resp c10St 0 4
    "nosuch" Json.null "call-c" rfl rfl rfl rfl (by decide)

/-- Is an event a `tool_call` event? -/
def evIsToolCall (e : AgentEvent) : Bool :=
  match e.data with
  | .toolCall _ _ _ => true
  | _ => false

/-- The pairing discipline of an event trace: every `tool_call` event is
immediately followed by a `tool_result` event carrying the same opaque id
(so each call has exactly one matching result, emitted after it). -/
inductive PairedL : List AgentEvent → Prop where
  | nil : PairedL []
  | plain (e : AgentEvent) (rest : List AgentEvent) (he : evIsToolCall e = false)
      (hr : PairedL rest) : PairedL (e :: rest)
  | pair (role role2 tool tool2 : String) (input : Json) (id res : String)
      (rest : List AgentEvent) (hr : PairedL rest) :
      PairedL (⟨role, .toolCall tool input id⟩ ::
        ⟨role2, .toolResult tool2 id res⟩ :: rest)

/-- Concatenation preserves the pairing discipline. -/
theorem PairedL.append : ∀ {xs ys : List AgentEvent},
    PairedL xs → PairedL ys → PairedL (xs ++ ys) := by
  intro xs ys hx hy
  induction hx with
  | nil => simpa using hy
  | plain e rest he _ ih => exact .plain e _ he ih
  | pair role role2 tool tool2 input id res rest _ ih =>
    exact .pair role role2 tool tool2 input id res _ ih

/-- A tool-use step emits exactly the `tool_call` event and then the
`tool_result` event with the same id (whatever the dispatch outcome). -/
theorem toolUseStep_events (role : String) (tools : List ToolDef) (done : Bool)
    (result : Json) (n : String) (input : Json) (id : String) :
    ∃ res, (toolUseStep role tools done result n input id).1
      = [⟨role, .toolCall n input id⟩, ⟨role, .toolResult n id res⟩] := by
  unfold toolUseStep
  cases hf : findTool tools n with
  | none => exact ⟨_, rfl⟩
  | some t =>
    cases hr : (t.handler input).ret with
    | error msg =>
      simp only [hr]
      exact ⟨_, rfl⟩
    | ok v =>
      cases v <;> simp only [hr] <;> exact ⟨_, rfl⟩

/-- All events emitted while processing one response obey the pairing
discipline. -/
theorem processBlocks_events_paired (role : String) (tools : List ToolDef) :
    ∀ (bs : List Block) (done : Bool) (result : Json),
      PairedL (processBlocks role tools done result bs).events
  | [], _, _ => .nil
  | .text s :: rest, done, result => by
    simp only [processBlocks]
    exact .plain _ _ rfl (processBlocks_events_paired role tools rest done result)
  | .toolUse n i id :: rest, done, result => by
    rcases hts : toolUseStep role tools done result n i id with ⟨evs, item, d1, r1⟩
    obtain ⟨res, hevs⟩ := toolUseStep_events role tools done result n i id
    rw [hts] at hevs
    simp only [processBlocks, hts]
    rw [show evs = [⟨role, .toolCall n i id⟩, ⟨role, .toolResult n id res⟩] from hevs]
    exact .pair _ _ _ _ _ _ _ _ (processBlocks_events_paired role tools rest d1 r1)

/-- `loopExit` only appends a status or error event. -/
theorem loopExit_events_paired (cfg : AgentConfig) (st : AgentState)
    (h : PairedL st.events) : PairedL ((loopExit cfg st).2.events) := by
  unfold loopExit emitEv
  by_cases hd : st.done = true
  · rw [if_pos hd]
    exact h.append (.plain _ _ rfl .nil)
  · rw [if_neg hd]
    exact h.append (.plain _ _ rfl .nil)

/-- The loop preserves the pairing discipline of the event buffer. -/
theorem loopGo_events_paired (cfg : AgentConfig) (responses : Nat → List Block) :
    ∀ (fuel k : Nat) (st : AgentState), PairedL st.events →
      PairedL ((loopGo cfg responses k fuel st).2.events)
  | 0, _, st, h => loopExit_events_paired cfg st h
  | fuel + 1, k, st, h => by
    simp only [loopGo]
    by_cases hd : st.done = true
    · rw [if_pos hd]
      exact loopExit_events_paired cfg st h
    · rw [if_neg hd]
      by_cases hi : st.interrupted = true
      · rw [if_pos hi]
        exact loopExit_events_paired cfg _ h
      · rw [if_neg hi, if_neg hi]
        have hpe := processBlocks_events_paired cfg.role cfg.tools (responses k)
          st.done st.result
        by_cases hht : (processBlocks cfg.role cfg.tools st.done st.result
            (responses k)).hasToolUse = true
        · rw [if_pos hht]
          exact loopGo_events_paired cfg responses fuel (k + 1) _ (h.append hpe)
        · rw [if_neg hht]
          cases hval : (if (processBlocks cfg.role cfg.tools st.done st.result
              (responses k)).done = true then
                Except.ok (processBlocks cfg.role cfg.tools st.done st.result
                  (responses k)).result
              else
                parseOutput (joinStr "\n" (processBlocks cfg.role cfg.tools st.done
                  st.result (responses k)).textParts)) with
          | error e =>
            simp only [hval]
            exact h.append hpe
          | ok r =>
            simp only [hval]
            exact (h.append hpe).append (.plain _ _ rfl .nil)

/-- Claim C4: in any non-interrupted run, whatever the decision-maker
responses and tool handlers do (success, raised exception, or unknown tool
name), the emitted event trace pairs every `tool_call` with exactly one
subsequent `tool_result` carrying the same opaque id — in fact the result
event immediately follows its call event. -/
theorem c4_tool_call_result_paired (cfg : AgentConfig)
    (responses : Nat → List Block) (context : Json) :
    PairedL ((BaseAgent.run cfg responses context false).2.events) := by
  unfold BaseAgent.run
  exact loopGo_events_paired cfg responses cfg.maxIterations 0 _
    (.plain _ _ rfl .nil)
